import Mathlib

/-!
Shallow embedding of the CloudWatch Log Insights query executor
(`query_cloudwatch_logs.py`): the time resolver `parse_time`, the resource
validator `validate_log_groups`, the submitter `execute_query`, the polling
loop `wait_for_results`, and the result formatter `format_results` with its
JSON/CSV/table renderers.

Modelling conventions:
  - Python exceptions are modelled as an `Except PyErr` result; `sys.exit`
    becomes the `PyErr.sysExit` variant.
  - Wall-clock time is passed explicitly: `nowMs` is the current epoch
    millisecond value, and `localOffMin` is the UTC offset (in minutes) that
    the platform's local timezone assigns when a naive `datetime` is
    converted with `.timestamp()`.
  - Machine integers are `Int`/`Nat` (Python integers are unbounded, so no
    wrap-around modelling is needed).
  - The AWS client is replaced by an explicit `catalog : List String` of
    existing log-group names; `describe_log_groups` filters it by prefix.
  - File persistence and `print` side channels are externalized: each
    formatter returns the rendered text, and warnings/status updates are
    returned as data.
-/

deriving instance DecidableEq for Except

/-- Python exception kinds raised by the embedded code. -/
inductive PyErr where
  | valueError (msg : String)
  | indexError
  | overflowError
  | querySyntaxError (msg : String)
  | logGroupNotFoundError (msg : String)
  | sysExit (code : Nat)
deriving DecidableEq

/-- Python whitespace characters stripped by `str.strip()` (ASCII subset). -/
def isPySpace (c : Char) : Bool :=
  c = ' ' ∨ c = '\t' ∨ c = '\n' ∨ c = '\r' ∨ c = '\x0b' ∨ c = '\x0c'

/-- `str.strip()` on the character list of a string. -/
def pyStripChars (cs : List Char) : List Char :=
  ((cs.dropWhile isPySpace).reverse.dropWhile isPySpace).reverse

/-- `str.lower()` (ASCII letters, which is all the comparisons need). -/
def pyLowerChars (cs : List Char) : List Char :=
  cs.map Char.toLower

/-- Decimal digit character for `n < 10`. -/
def digitChar (n : Nat) : Char := Char.ofNat (48 + n)

/-- Digit characters of `n`, most significant first; `fuel`-structured so the
kernel can evaluate it (`fuel ≥ number of digits` suffices). -/
def natDigitsAux : Nat → Nat → List Char
  | 0, _ => []
  | _, 0 => []
  | fuel + 1, n => natDigitsAux fuel (n / 10) ++ [digitChar (n % 10)]

/-- Decimal rendering of a natural number, as Python `str(n)`. -/
def natToString (n : Nat) : String :=
  if n = 0 then "0" else ⟨natDigitsAux (n + 1) n⟩

/-- Decimal rendering of an integer, as Python `str(i)`. -/
def intToString (i : Int) : String :=
  if i < 0 then "-" ++ natToString i.natAbs else natToString i.natAbs

/-- Numeric value of a list of decimal digit characters. -/
def digitsToNat (ds : List Char) : Nat :=
  ds.foldl (fun acc c => acc * 10 + (c.toNat - 48)) 0

/-- Python `int(s)` on a string: optional surrounding whitespace, optional
sign, then decimal digits; anything else raises `ValueError` (digit-group
underscores are not modelled — no caller constructs them). -/
def pyInt (cs : List Char) : Except Unit Int :=
  let t := pyStripChars cs
  match t with
  | '+' :: ds =>
    if ds ≠ [] ∧ ds.all Char.isDigit then .ok (Int.ofNat (digitsToNat ds)) else .error ()
  | '-' :: ds =>
    if ds ≠ [] ∧ ds.all Char.isDigit then .ok (-(Int.ofNat (digitsToNat ds))) else .error ()
  | ds =>
    if ds ≠ [] ∧ ds.all Char.isDigit then .ok (Int.ofNat (digitsToNat ds)) else .error ()

/-- Days from 1970-01-01 to year/month/day in the proleptic Gregorian
calendar (valid for `1 ≤ y`), the standard era-based civil-date formula. -/
def daysFromCivil (y m d : Nat) : Int :=
  let y2 := if m ≤ 2 then y - 1 else y
  let era := y2 / 400
  let yoe := y2 % 400
  let mp := (m + 9) % 12
  let doy := (153 * mp + 2) / 5 + (d - 1)
  let doe := yoe * 365 + yoe / 4 - yoe / 100 + doy
  (era * 146097 + doe : Int) - 719468

/-- Gregorian leap-year rule. -/
def isLeapYear (y : Nat) : Bool :=
  (y % 4 = 0 ∧ y % 100 ≠ 0) ∨ y % 400 = 0

/-- Number of days in a month. -/
def daysInMonth (y m : Nat) : Nat :=
  if m = 2 then (if isLeapYear y then 29 else 28)
  else if m = 4 ∨ m = 6 ∨ m = 9 ∨ m = 11 then 30
  else 31

/-- A parsed `datetime.datetime` value: civil fields plus an optional fixed
UTC offset in minutes (`none` = naive). Microseconds are not modelled; no
input in this development carries a fractional-second part. -/
structure PyDateTime where
  year : Nat
  month : Nat
  day : Nat
  hour : Nat
  minute : Nat
  second : Nat
  tzOffsetMin : Option Int
deriving DecidableEq

/-- Range-check and build a `PyDateTime` (the checks `datetime` performs). -/
def mkDateTime (y mo d h mi s : Nat) (tz : Option Int) : Except Unit PyDateTime :=
  if 1 ≤ y ∧ y ≤ 9999 ∧ 1 ≤ mo ∧ mo ≤ 12 ∧ 1 ≤ d ∧ d ≤ daysInMonth y mo
      ∧ h < 24 ∧ mi < 60 ∧ s < 60 then
    .ok ⟨y, mo, d, h, mi, s, tz⟩
  else .error ()

/-- Numeric value of a two-digit pair, if both are digits. -/
def twoDigits (a b : Char) : Except Unit Nat :=
  if a.isDigit ∧ b.isDigit then .ok ((a.toNat - 48) * 10 + (b.toNat - 48)) else .error ()

/-- Numeric value of a four-digit group, if all are digits. -/
def fourDigits (a b c d : Char) : Except Unit Nat :=
  if a.isDigit ∧ b.isDigit ∧ c.isDigit ∧ d.isDigit then
    .ok ((a.toNat - 48) * 1000 + (b.toNat - 48) * 100 + (c.toNat - 48) * 10 + (d.toNat - 48))
  else .error ()

/-- The time-of-day (and optional offset) tail of an ISO string:
`HH:MM:SS` optionally followed by `±HH:MM`. -/
def parseIsoTimeTail : List Char → Except Unit (Nat × Nat × Nat × Option Int)
  | [h1, h2, ':', m1, m2, ':', s1, s2] => do
    let h ← twoDigits h1 h2
    let mi ← twoDigits m1 m2
    let s ← twoDigits s1 s2
    .ok (h, mi, s, none)
  | [h1, h2, ':', m1, m2, ':', s1, s2, sg, o1, o2, ':', p1, p2] => do
    if sg = '+' ∨ sg = '-' then
      let h ← twoDigits h1 h2
      let mi ← twoDigits m1 m2
      let s ← twoDigits s1 s2
      let oh ← twoDigits o1 o2
      let om ← twoDigits p1 p2
      if oh < 24 ∧ om < 60 then
        let off : Int := Int.ofNat (oh * 60 + om)
        .ok (h, mi, s, some (if sg = '-' then -off else off))
      else .error ()
    else .error ()
  | _ => .error ()

/-- `datetime.fromisoformat`, on the grammar subset this program feeds it:
`YYYY-MM-DD`, optionally followed by `T` and `HH:MM:SS`, optionally followed
by a `±HH:MM` offset. (Fractional seconds, separators other than `T`, and
the short `HH:MM` time form are omitted: no input in this development uses
them, and an unparsed form simply raises `ValueError`, which every caller
catches and falls through on.) -/
def fromisoformat (cs : List Char) : Except Unit PyDateTime :=
  match cs with
  | [y1, y2, y3, y4, '-', m1, m2, '-', d1, d2] => do
    let y ← fourDigits y1 y2 y3 y4
    let mo ← twoDigits m1 m2
    let d ← twoDigits d1 d2
    mkDateTime y mo d 0 0 0 none
  | y1 :: y2 :: y3 :: y4 :: '-' :: m1 :: m2 :: '-' :: d1 :: d2 :: 'T' :: rest => do
    let y ← fourDigits y1 y2 y3 y4
    let mo ← twoDigits m1 m2
    let d ← twoDigits d1 d2
    let (h, mi, s, tz) ← parseIsoTimeTail rest
    mkDateTime y mo d h mi s tz
  | _ => .error ()

/-- `datetime.strptime(s, "%Y-%m-%dT%H:%M:%S")`: the exact naive
date-time shape (4-digit year). -/
def strptimeDateTimeFmt (cs : List Char) : Except Unit PyDateTime :=
  match cs with
  | [y1, y2, y3, y4, '-', m1, m2, '-', d1, d2, 'T', h1, h2, ':', n1, n2, ':', s1, s2] => do
    let y ← fourDigits y1 y2 y3 y4
    let mo ← twoDigits m1 m2
    let d ← twoDigits d1 d2
    let h ← twoDigits h1 h2
    let mi ← twoDigits n1 n2
    let s ← twoDigits s1 s2
    mkDateTime y mo d h mi s none
  | _ => .error ()

/-- `datetime.strptime(s, "%Y-%m-%d")`: the exact bare-date shape. -/
def strptimeDateFmt (cs : List Char) : Except Unit PyDateTime :=
  match cs with
  | [y1, y2, y3, y4, '-', m1, m2, '-', d1, d2] => do
    let y ← fourDigits y1 y2 y3 y4
    let mo ← twoDigits m1 m2
    let d ← twoDigits d1 d2
    mkDateTime y mo d 0 0 0 none
  | _ => .error ()

/-- Epoch milliseconds of the civil fields read as UTC. -/
def civilToEpochMs (dt : PyDateTime) : Int :=
  daysFromCivil dt.year dt.month dt.day * 86400000
    + (Int.ofNat (dt.hour * 3600 + dt.minute * 60 + dt.second)) * 1000

/-- `int(dt.timestamp() * 1000)`: an aware datetime subtracts its own
offset; a naive datetime is interpreted in the platform's local timezone
(`localOffMin`). Negative sub-millisecond truncation never arises because
all modelled datetimes are whole seconds. -/
def dtTimestampMs (localOffMin : Int) (dt : PyDateTime) : Int :=
  civilToEpochMs dt - dt.tzOffsetMin.getD localOffMin * 60000

/-- `str.replace('Z', '+00:00')`. -/
def replaceZ (cs : List Char) : List Char :=
  cs.flatMap (fun c => if c = 'Z' then "+00:00".data else [c])

/-- Epoch milliseconds of local midnight of the local day containing
instant `t` (`datetime.now().replace(hour=0, minute=0, second=0,
microsecond=0).timestamp()` with `now` at `t`). -/
def startOfLocalDay (t localOffMin : Int) : Int :=
  let localMs := t + localOffMin * 60000
  localMs.fdiv 86400000 * 86400000 - localOffMin * 60000

/-- `int((datetime.now() - delta).timestamp() * 1000)` for a whole-second
`delta` (given in milliseconds): the subtraction is on the naive local
datetime, and raises `OverflowError` ("date value out of range") when the
civil result leaves the `datetime` range — year 1 to 9999, i.e. local
civil milliseconds outside
`[0001-01-01T00:00:00, 9999-12-31T23:59:59.999999]` =
`[-62135596800000, 253402300799999]`. Otherwise the round trip through the
local timezone cancels and the epoch value is `nowMs - deltaMs`. -/
def nowMinusDeltaMs (nowMs localOffMin deltaMs : Int) : Except PyErr Int :=
  let civil := nowMs + localOffMin * 60000 - deltaMs
  if civil < -62135596800000 ∨ 253402300799999 < civil then .error .overflowError
  else .ok (nowMs - deltaMs)

/-- The descriptive error raised when no time rule matches. -/
def UNABLE_MSG (s : String) : String :=
  "Unable to parse time format: " ++ s ++ "\n"
    ++ "Supported formats: ISO 8601, Unix ms, relative (1h, 2d), named (last-hour, now)"

/-- The trailing (absolute-format) half of `parse_time`: the 13-digit Unix
millisecond rule, then `fromisoformat` after `Z` replacement, then the two
`strptime` fallbacks, then the descriptive `ValueError`. `s` is the already
stripped input. -/
def parseAbsolute (localOffMin : Int) (s : List Char) : Except PyErr Int :=
  if s ≠ [] ∧ s.all Char.isDigit ∧ s.length = 13 then
    .ok (Int.ofNat (digitsToNat s))
  else
    match fromisoformat (replaceZ s) with
    | .ok dt => .ok (dtTimestampMs localOffMin dt)
    | .error _ =>
      match strptimeDateTimeFmt s with
      | .ok dt => .ok (dtTimestampMs localOffMin dt)
      | .error _ =>
        match strptimeDateFmt s with
        | .ok dt => .ok (dtTimestampMs localOffMin dt)
        | .error _ => .error (.valueError (UNABLE_MSG ⟨s⟩))

/-- The part of `parse_time` after the named-range returns, over the
already stripped input `s`. The source first evaluates `time_str[-1]`,
which raises `IndexError` on empty input; for a unit-suffixed integer it
builds a `timedelta` and returns `now - delta`, where the `try` catches
only `ValueError`, so an `OverflowError` propagates uncaught — raised by
the `timedelta` constructor when the normalized delta exceeds ±999999999
days (the magnitude bound `timedelta` enforces after converting the unit
to days), or by the subtraction when the resulting date leaves year
1..9999 (see `nowMinusDeltaMs`). An `int(...)` failure falls through to
`parseAbsolute`. -/
def parseRelativeOrAbsolute (nowMs localOffMin : Int) (s : List Char) : Except PyErr Int :=
  match s.getLast? with
  | none => .error .indexError
  | some c =>
    if c = 'h' ∨ c = 'd' ∨ c = 'm' ∨ c = 's' then
      match pyInt s.dropLast with
      | .ok v =>
        let deltaSec : Int :=
          if c = 's' then v
          else if c = 'm' then v * 60
          else if c = 'h' then v * 3600
          else v * 86400
        if deltaSec.fdiv 86400 < -999999999 ∨ 999999999 < deltaSec.fdiv 86400 then
          .error .overflowError
        else nowMinusDeltaMs nowMs localOffMin (deltaSec * 1000)
      | .error _ => parseAbsolute localOffMin s
    else parseAbsolute localOffMin s

/-- `CloudWatchLogsQueryExecutor.parse_time`. Strips the input; resolves
`now`, the named ranges, relative `{n}{s|m|h|d}` durations, 13-digit Unix
milliseconds, and ISO-8601 forms, in the source's order (the part after
the named-range returns is factored into `parseRelativeOrAbsolute`). The
named ranges subtract a fixed `timedelta` from `datetime.now()`, so the
same date-range check as in the relative branch applies — it can only
fire when `now` is within a week of `datetime.min`. -/
def parse_time (nowMs localOffMin : Int) (timeStr : String) : Except PyErr Int :=
  let s := pyStripChars timeStr.data
  let low := pyLowerChars s
  if low = "now".data then .ok nowMs
  else if low = "last-hour".data then nowMinusDeltaMs nowMs localOffMin 3600000
  else if low = "last-24h".data then nowMinusDeltaMs nowMs localOffMin 86400000
  else if low = "last-day".data then nowMinusDeltaMs nowMs localOffMin 86400000
  else if low = "last-week".data then nowMinusDeltaMs nowMs localOffMin 604800000
  else if low = "yesterday".data then
    match nowMinusDeltaMs nowMs localOffMin 86400000 with
    | .ok t => .ok (startOfLocalDay t localOffMin)
    | .error e => .error e
  else if low = "today".data then .ok (startOfLocalDay nowMs localOffMin)
  else parseRelativeOrAbsolute nowMs localOffMin s

example : parse_time 999 0 "now" = .ok 999 := by decide
example : parse_time 1000000 0 "30m" = .ok (-800000 : Int) := by decide
example : parse_time 0 0 "1733395200000" = .ok 1733395200000 := by decide
example : parse_time 0 0 "2025-12-05T10:00:00Z" = .ok 1764928800000 := by decide
example : parse_time 0 60 "2025-12-05T10:00:00" = .ok 1764925200000 := by decide
example : parse_time 0 0 "2025-12-05" = .ok 1764892800000 := by decide
example : parse_time 0 0 "" = .error .indexError := by decide
example : parse_time 0 0 "garbage" = .error (.valueError (UNABLE_MSG "garbage")) := by decide
example : parse_time 1765000000000 0 "9999999999d" = .error .overflowError := by decide
example : parse_time 1765000000000 0 "3000000d" = .error .overflowError := by decide
example : parse_time 1765000000000 0 "7d" = .ok 1764395200000 := by decide

/-- The result of `validate_log_groups`: the validated group names plus the
optional truncation warning the source prints to stderr. -/
structure ValidateOutcome where
  groups : List String
  warning : Option String
deriving DecidableEq

/-- The stderr warning printed when more than 20 groups were gathered. -/
def TRUNC_WARNING (n : Nat) : String :=
  "WARNING: CloudWatch limits queries to 20 log groups. "
    ++ "Using first 20 of " ++ natToString n ++ " groups."

/-- The `describe_log_groups` pagination, over an explicit catalog of
existing log-group names: every name with the given prefix, in catalog
order. Note the AWS API returns a (possibly empty) page for a prefix that
matches nothing — it raises no `ResourceNotFoundException` — so the
source's `except`/string-match arm for that exception is unreachable and
is not modelled. -/
def describe_log_groups (catalog : List String) (pfx : String) : List String :=
  catalog.filter (fun g => pfx.data.isPrefixOf g.data)

/-- The per-pattern loop of `validate_log_groups`, carrying the
`validated_groups` accumulator. A wildcard pattern appends every catalog
name whose prefix is the pattern with its `*`s removed, then raises
`LogGroupNotFoundError` if the ACCUMULATED list (not the per-pattern match
set) is empty — exactly the source's `if not validated_groups` check. A
literal pattern is appended after a `describe_log_groups(prefix, limit=1)`
call that cannot fail for a missing name (see `describe_log_groups`), so no
existence check actually happens. -/
def expandPatterns (catalog : List String) (acc : List String) :
    List String → Except PyErr (List String)
  | [] => .ok acc
  | p :: ps =>
    if p.data.contains '*' then
      let pfx : String := ⟨p.data.filter (fun c => c ≠ '*')⟩
      let acc2 := acc ++ describe_log_groups catalog pfx
      if acc2.isEmpty then
        .error (.logGroupNotFoundError ("No log groups found matching pattern: " ++ p))
      else expandPatterns catalog acc2 ps
    else expandPatterns catalog (acc ++ [p]) ps

/-- `CloudWatchLogsQueryExecutor.validate_log_groups`: expand the patterns,
then cap the combined list at 20 names, warning (non-fatally) with the
original count when capping occurs. -/
def validate_log_groups (catalog : List String) (log_groups : List String) :
    Except PyErr ValidateOutcome :=
  match expandPatterns catalog [] log_groups with
  | .error e => .error e
  | .ok v =>
    if 20 < v.length then .ok ⟨v.take 20, some (TRUNC_WARNING v.length)⟩
    else .ok ⟨v, none⟩

example : validate_log_groups ["/aws/x"] ["/aws/*"] = .ok ⟨["/aws/x"], none⟩ := by decide
example : validate_log_groups ["/aws/x"] ["/zzz*"]
    = .error (.logGroupNotFoundError "No log groups found matching pattern: /zzz*") := by decide

/-- The argument record of the `start_query` remote call: modelling cuts the
pipeline at the submission boundary, so a successful `execute_query` returns
the exact call it would place. -/
structure StartQueryCall where
  logGroupNames : List String
  startTime : Int
  endTime : Int
  queryString : String
  limit : Nat
deriving DecidableEq

/-- The `QuerySyntaxError` message for an inverted time range; the f-string
interpolates the raw inputs and both resolved epoch values. -/
def timeRangeErrorMsg (start_time end_time : String) (s e : Int) : String :=
  "Start time must be before end time\n"
    ++ "Start: " ++ start_time ++ " (" ++ intToString s ++ ")\n"
    ++ "End: " ++ end_time ++ " (" ++ intToString e ++ ")"

/-- `CloudWatchLogsQueryExecutor.execute_query`, up to the remote
submission: parse both endpoints (a `ValueError` is re-raised as
`QuerySyntaxError` with the same message; an `IndexError` propagates
unchanged), reject `start_epoch >= end_epoch`, validate the log groups
(a `LogGroupNotFoundError` is printed and becomes `sys.exit(1)`), and
otherwise return the `start_query` call record. -/
def execute_query (nowMs localOffMin : Int) (catalog : List String)
    (query : String) (log_groups : List String)
    (start_time end_time : String) (limit : Nat) : Except PyErr StartQueryCall :=
  match parse_time nowMs localOffMin start_time with
  | .error (.valueError m) => .error (.querySyntaxError m)
  | .error e => .error e
  | .ok start_epoch =>
    match parse_time nowMs localOffMin end_time with
    | .error (.valueError m) => .error (.querySyntaxError m)
    | .error e => .error e
    | .ok end_epoch =>
      if start_epoch ≥ end_epoch then
        .error (.querySyntaxError (timeRangeErrorMsg start_time end_time start_epoch end_epoch))
      else
        match validate_log_groups catalog log_groups with
        | .error _ => .error (.sysExit 1)
        | .ok vo => .ok ⟨vo.groups, start_epoch, end_epoch, query, limit⟩

/-- The statistics block of a `get_query_results` response. -/
structure QueryStats where
  recordsScanned : Nat
  recordsMatched : Nat
  bytesScanned : Nat
deriving DecidableEq

/-- One `{field, value}` cell of a CloudWatch result row; `value` is
optional because the source reads it with `field.get('value', '')`. -/
structure ResultField where
  field : String
  value : Option String
deriving DecidableEq

/-- One `get_query_results` response: a status string, optional statistics,
and the (possibly empty) result rows. -/
structure QueryResponse where
  status : String
  statistics : Option QueryStats
  results : List (List ResultField)
deriving DecidableEq

/-- The data content of one `_print_status_update` call: elapsed seconds
since the wait started, the status line, and the statistics block (rendered
only when present). -/
structure StatusUpdate where
  elapsedSecs : Nat
  status : String
  statistics : Option QueryStats
deriving DecidableEq

/-- How `wait_for_results` ends: returning the `Complete` response, or
`sys.exit(1)` for the three failure-terminal states. -/
inductive PollOutcome where
  | complete (r : QueryResponse)
  | exitFailure
deriving DecidableEq

/-- Membership of a status in the source's terminal-state list. -/
def isTerminalStatus (st : String) : Bool :=
  st = "Complete" ∨ st = "Failed" ∨ st = "Cancelled" ∨ st = "Timeout"

/-- The `while True` polling loop, driven by the successive
`get_query_results` responses the remote service would return. Time is in
seconds relative to the wait's start: each non-terminal iteration sleeps 2
seconds (remote-call latency is abstracted to zero, as the source measures
wall-clock time only to gate progress lines). An update is emitted when the
`update_interval` has elapsed since the last one OR the status is terminal;
`none` as outcome models a stream that never reaches a terminal status
(the source would keep looping). -/
def pollLoop (updateInterval lastUpdate curTime : Nat) :
    List QueryResponse → List StatusUpdate × Option PollOutcome
  | [] => ([], none)
  | r :: rs =>
    let shouldUpdate := updateInterval ≤ curTime - lastUpdate
    let terminal := isTerminalStatus r.status
    let ups := if shouldUpdate ∨ terminal then [StatusUpdate.mk curTime r.status r.statistics] else []
    let lastUpdate2 := if shouldUpdate ∨ terminal then curTime else lastUpdate
    if terminal then
      (ups, some (if r.status = "Complete" then .complete r else .exitFailure))
    else
      let rest := pollLoop updateInterval lastUpdate2 (curTime + 2) rs
      (ups ++ rest.1, rest.2)

/-- `CloudWatchLogsQueryExecutor.wait_for_results`: `start_time` and
`last_update_time` are both initialized to the wait's start. -/
def wait_for_results (updateInterval : Nat) (responses : List QueryResponse) :
    List StatusUpdate × Option PollOutcome :=
  pollLoop updateInterval 0 0 responses

def runningResp : QueryResponse := ⟨"Running", none, []⟩

def completeResp : QueryResponse :=
  ⟨"Complete", some ⟨100, 10, 2048⟩, [[⟨"@message", some "hello"⟩]]⟩

example : wait_for_results 30 [runningResp, runningResp, completeResp]
    = ([⟨4, "Complete", some ⟨100, 10, 2048⟩⟩], some (.complete completeResp)) := by decide
example : wait_for_results 2 [runningResp, runningResp, completeResp]
    = ([⟨2, "Running", none⟩, ⟨4, "Complete", some ⟨100, 10, 2048⟩⟩],
       some (.complete completeResp)) := by decide

/-- Python dict insertion on an association list: an existing key keeps its
position and gets the new value; a new key is appended at the end. -/
def dictInsert (d : List (String × String)) (k v : String) : List (String × String) :=
  if d.any (fun p => p.1 = k) then d.map (fun p => if p.1 = k then (k, v) else p)
  else d ++ [(k, v)]

/-- The dict comprehension `{field['field']: field.get('value', '') for
field in result}` building one row. -/
def buildRow (result : List ResultField) : List (String × String) :=
  result.foldl (fun d f => dictInsert d f.field (f.value.getD "")) []

/-- `dict.get(field, '')` / `row.get(field, '')` on a built row. -/
def pyGetD (row : List (String × String)) (k : String) : String :=
  match row.lookup k with
  | some v => v
  | none => ""

/-- Append a key to an accumulator unless already present (the effect one
element has on a Python `set`'s membership, tracked in first-seen order). -/
def appendNew (acc : List String) (k : String) : List String :=
  if acc.contains k then acc else acc ++ [k]

/-- The distinct members of a key list in first-occurrence order: the
membership content of the `all_fields` set. -/
def distinctFields (ks : List String) : List String :=
  ks.foldl appendNew []

/-- Python string `<=`: lexicographic by code point. -/
def lexLe : List Char → List Char → Bool
  | [], _ => true
  | _ :: _, [] => false
  | a :: as, b :: bs =>
    if a.toNat < b.toNat then true
    else if b.toNat < a.toNat then false
    else lexLe as bs

/-- Insert into a lexicographically sorted list. -/
def insertSorted (x : String) : List String → List String
  | [] => [x]
  | y :: ys => if lexLe x.data y.data then x :: y :: ys else y :: insertSorted x ys

/-- Python `sorted` on a list of (distinct) strings: the members in
ascending lexicographic order. On distinct elements every sort agrees, so
insertion sort models `sorted(set(...))` exactly regardless of the set's
unspecified iteration order. -/
def sortStrings (l : List String) : List String :=
  l.foldr insertSorted []

/-- The reserved metadata field names, in the source's canonical order. -/
def metadata_fields : List String := ["@timestamp", "@message", "@logStream", "@log"]

/-- Every field name occurring in the result set, row by row (the elements
thrown into the `all_fields` set). -/
def allFieldNames (results : List (List ResultField)) : List String :=
  results.flatMap (fun r => r.map (fun f => f.field))

/-- The `sorted_fields` schema of `format_results`: metadata fields present
in the result set first (canonical order), then the remaining distinct
field names sorted lexicographically; with `exclude_metadata`, every field
starting with `@` is then dropped. -/
def computeSortedFields (results : List (List ResultField)) (excludeMetadata : Bool) :
    List String :=
  let all := allFieldNames results
  let sf := metadata_fields.filter (fun f => all.contains f)
    ++ sortStrings ((distinctFields all).filter (fun f => !(metadata_fields.contains f)))
  if excludeMetadata then sf.filter (fun f => !("@".data.isPrefixOf f.data)) else sf

/-- Lowercase hex digit. -/
def hexChar (n : Nat) : Char := if n < 10 then digitChar n else Char.ofNat (87 + n)

/-- Four-hex-digit `\uXXXX` escape body. -/
def uEscape (n : Nat) : List Char :=
  ['\\', 'u', hexChar (n / 4096 % 16), hexChar (n / 256 % 16), hexChar (n / 16 % 16), hexChar (n % 16)]

/-- `json.dumps` character escaping with the default `ensure_ascii=True`:
the two-character escapes, `\uXXXX` for other characters outside the
printable ASCII range, surrogate pairs beyond the basic plane. -/
def jsonEscapeChar (c : Char) : List Char :=
  if c = '"' then ['\\', '"']
  else if c = '\\' then ['\\', '\\']
  else if c = '\n' then ['\\', 'n']
  else if c = '\t' then ['\\', 't']
  else if c = '\r' then ['\\', 'r']
  else if c = '\x08' then ['\\', 'b']
  else if c = '\x0c' then ['\\', 'f']
  else if c.toNat < 32 ∨ 126 < c.toNat then
    if c.toNat < 65536 then uEscape c.toNat
    else uEscape (55296 + (c.toNat - 65536) / 1024) ++ uEscape (56320 + (c.toNat - 65536) % 1024)
  else [c]

/-- A JSON string literal of `s`. -/
def jsonQuote (s : String) : String :=
  ⟨'"' :: s.data.flatMap jsonEscapeChar ++ ['"']⟩

/-- One `"key": "value"` member line at `indent=2` depth two. -/
def jsonPairLine (p : String × String) : String :=
  "    " ++ jsonQuote p.1 ++ ": " ++ jsonQuote p.2

/-- One row object at `indent=2` depth one (the opening brace is placed by
the caller's item indentation). -/
def jsonObj (row : List (String × String)) : String :=
  if row.isEmpty then "\x7b\x7d"
  else "\x7b\n" ++ String.intercalate ",\n" (row.map jsonPairLine) ++ "\n  \x7d"

/-- `json.dumps(rows, indent=2)` for a list of flat string-valued dicts:
the exact text `_format_json` produces. -/
def jsonDumpsRows (rows : List (List (String × String))) : String :=
  if rows.isEmpty then "[]"
  else "[\n" ++ String.intercalate ",\n" (rows.map (fun r => "  " ++ jsonObj r)) ++ "\n]"

/-- QUOTE_MINIMAL: a CSV cell needs quoting iff it contains the delimiter,
the quote character, or a line break. -/
def csvNeedsQuoting (s : String) : Bool :=
  s.data.any (fun c => c = ',' ∨ c = '"' ∨ c = '\r' ∨ c = '\n')

/-- One CSV cell under the default excel dialect. -/
def csvQuoteField (s : String) : String :=
  if csvNeedsQuoting s then
    ⟨'"' :: s.data.flatMap (fun c => if c = '"' then ['"', '"'] else [c]) ++ ['"']⟩
  else s

/-- One CSV record, terminated with the excel dialect's `\r\n`. -/
def csvLine (cells : List String) : String :=
  String.intercalate "," (cells.map csvQuoteField) ++ "\r\n"

/-- Python `repr` of a plain string (as used in the `DictWriter` error
message; none of the field names involved need quote escaping). -/
def pyReprStr (s : String) : String := "\x27" ++ s ++ "\x27"

/-- `csv.DictWriter._dict_to_list` with the default `extrasaction='raise'`
and `restval=None` (which the writer renders as an empty cell): a row
carrying a key outside `fieldnames` raises `ValueError`; otherwise each
field is looked up with the empty string as default. The source's
`wrong_fields` is a set difference; its members are modelled in
first-occurrence row order. -/
def dictWriterRow (fields : List String) (row : List (String × String)) :
    Except PyErr (List String) :=
  let wrong := distinctFields ((row.map Prod.fst).filter (fun k => !(fields.contains k)))
  if wrong.isEmpty then .ok (fields.map (fun f => pyGetD row f))
  else .error (.valueError ("dict contains fields not in fieldnames: "
    ++ String.intercalate ", " (wrong.map pyReprStr)))

/-- `_format_csv`: header record from `fieldnames`, then one record per row
in order; the whole written text is returned. -/
def format_csv (rows : List (List (String × String))) (fields : List String) :
    Except PyErr String :=
  match rows.mapM (dictWriterRow fields) with
  | .error e => .error e
  | .ok dataRows => .ok (String.join (csvLine fields :: dataRows.map csvLine))

/-- `str.ljust`: pad with spaces on the right up to the width. -/
def pyLjust (s : String) (w : Nat) : String :=
  ⟨s.data ++ List.replicate (w - s.data.length) ' '⟩

/-- The column width of `_format_table`: max of header length and longest
value, capped at 50. -/
def tableWidth (rows : List (List (String × String))) (f : String) : Nat :=
  min 50 (rows.foldl (fun acc row => max acc (pyGetD row f).length) f.length)

/-- One table cell: values longer than 50 characters are clipped to 47 plus
`...`, then left-justified to the column width. -/
def tableCell (row : List (String × String)) (f : String) (w : Nat) : String :=
  let value := pyGetD row f
  let value2 := if 50 < value.length then (⟨value.data.take 47⟩ : String) ++ "..." else value
  pyLjust value2 w

/-- `_format_table`: header, dash separator with `-+-` junctions, then the
rows, separated by newlines. (The source's `if not rows` early return is
unreachable from `format_results`, whose guards ensure at least one row.) -/
def format_table (rows : List (List (String × String))) (fields : List String) : String :=
  let header := String.intercalate " | " (fields.map (fun f => pyLjust f (tableWidth rows f)))
  let sep := String.intercalate "-+-"
    (fields.map (fun f => (⟨List.replicate (tableWidth rows f) '-'⟩ : String)))
  let body := rows.map (fun row =>
    String.intercalate " | " (fields.map (fun f => tableCell row f (tableWidth rows f))))
  String.intercalate "\n" (header :: sep :: body)

/-- What `format_results` produces: the no-results signal, the rendered
text of the chosen encoding, or a raised exception. -/
inductive FormatResult where
  | noResults
  | output (text : String)
  | pyError (e : PyErr)
deriving DecidableEq

/-- `CloudWatchLogsQueryExecutor.format_results`: empty result set or empty
first row signal "no results"; otherwise the schema and the row dicts are
built and dispatched on the format string. Note the JSON renderer receives
only `rows` — the computed schema is not passed to it. -/
def format_results (results : List (List ResultField)) (format : String)
    (excludeMetadata : Bool) : FormatResult :=
  if results.isEmpty then .noResults
  else if results.head? = some [] then .noResults
  else
    let sortedFields := computeSortedFields results excludeMetadata
    let rows := results.map buildRow
    if format = "json" then .output (jsonDumpsRows rows)
    else if format = "csv" then
      match format_csv rows sortedFields with
      | .ok s => .output s
      | .error e => .pyError e
    else if format = "table" then .output (format_table rows sortedFields)
    else .pyError (.valueError ("Unsupported format: " ++ format))

/-- Modelled from the spec (§4.5, JSON rule), for refinement comparison
only: "render the materialized row sequence as an array of field→value
objects, stable field insertion order per the computed schema" — each row
materialized to every schema field with the empty string for absent ones,
keys in schema order. -/
def formatJsonPerSpec (results : List (List ResultField)) (excludeMetadata : Bool) : String :=
  let fields := computeSortedFields results excludeMetadata
  jsonDumpsRows (results.map (fun r => fields.map (fun f => (f, pyGetD (buildRow r) f))))

example : format_results [] "json" false = .noResults := by decide
example : format_results [[⟨"b", some "1"⟩, ⟨"a", some "2"⟩]] "json" false
    = .output "[\n  \x7b\n    \"b\": \"1\",\n    \"a\": \"2\"\n  \x7d\n]" := by decide
example : format_results [[⟨"a", some "2"⟩, ⟨"b", some "1"⟩]] "csv" false
    = .output "a,b\r\n2,1\r\n" := by decide
example : format_results [[⟨"a", some "2,x"⟩]] "csv" false
    = .output "a\r\n\"2,x\"\r\n" := by decide
example : format_results [[⟨"a", some "2"⟩, ⟨"b", some "1"⟩]] "table" false
    = .output "a | b\n--+--\n2 | 1" := by decide
example : format_results [[⟨"@timestamp", some "T"⟩, ⟨"b", some "1"⟩]] "table" true
    = .output "b\n-\n1" := by decide

/-- C1: the claim says that with `exclude_privileged` set no privileged
(metadata) value appears in any rendered encoding. The code drops the
fields only from the schema; the JSON renderer ignores the schema and
renders the privileged values anyway, and the CSV renderer raises
`ValueError` because the row dicts still carry the excluded keys. Only the
table encoding behaves as claimed. -/
theorem c1_exclude_privileged_not_applied_json_csv :
    format_results [[⟨"@timestamp", some "T1"⟩, ⟨"level", some "info"⟩]] "json" true
      = .output "[\n  \x7b\n    \"@timestamp\": \"T1\",\n    \"level\": \"info\"\n  \x7d\n]"
    ∧ format_results [[⟨"@timestamp", some "T1"⟩, ⟨"level", some "info"⟩]] "csv" true
      = .pyError (.valueError "dict contains fields not in fieldnames: \x27@timestamp\x27")
    ∧ format_results [[⟨"@timestamp", some "T1"⟩, ⟨"level", some "info"⟩]] "table" true
      = .output "level\n-----\ninfo " := by decide

/-- C2: the claim says a timezone-less ISO-8601 timestamp is interpreted in
UTC, so the `Z` and non-`Z` forms resolve equally in every timezone. In the
code the non-`Z` form parses to a naive `datetime`, and `.timestamp()`
interprets a naive value in the platform's local timezone: with a local
offset of +60 minutes the two forms resolve 3600000 ms apart. -/
theorem c2_naive_iso_interpreted_in_local_time :
    parse_time 0 60 "2025-12-05T10:00:00Z" = .ok 1764928800000
    ∧ parse_time 0 60 "2025-12-05T10:00:00" = .ok 1764925200000
    ∧ parse_time 0 60 "2025-12-05T10:00:00Z" ≠ parse_time 0 60 "2025-12-05T10:00:00" := by
  decide

/-- C3: the claim says a wildcard pattern matching zero resources always
fails, even when earlier patterns contributed names. The code's emptiness
check is on the accumulated `validated_groups` list, so a zero-match
wildcard placed after a contributing pattern passes silently; the same
wildcard alone does fail. -/
theorem c3_zero_match_wildcard_passes_when_accumulator_nonempty :
    validate_log_groups ["/aws/x"] ["/aws/*", "/zzz*"] = .ok ⟨["/aws/x"], none⟩
    ∧ validate_log_groups ["/aws/x"] ["/zzz*"]
        = .error (.logGroupNotFoundError "No log groups found matching pattern: /zzz*") := by
  decide

/-- C4: the claim says a literal pattern absent from the catalog fails with
`ResourceNotFoundError`. The code's existence probe (`describe_log_groups`
with the name as prefix) returns an empty page rather than raising for a
missing name, so the unreachable exception arm never fires and the literal
is appended unvalidated. -/
theorem c4_missing_literal_passes_through :
    validate_log_groups ["/aws/existing"] ["/missing"] = .ok ⟨["/missing"], none⟩ := by decide

/-- C5 counterexample: the claim says JSON object key order follows the
computed schema. On a row whose fields arrive as `b` then `a` the rendered
object keeps the row's own order `b, a`, whereas the schema orders them
`a, b`; the code's output differs from the schema-ordered rendering. -/
theorem c5_json_schema_order_counterexample :
    format_results [[⟨"b", some "1"⟩, ⟨"a", some "2"⟩]] "json" false
      = .output "[\n  \x7b\n    \"b\": \"1\",\n    \"a\": \"2\"\n  \x7d\n]"
    ∧ formatJsonPerSpec [[⟨"b", some "1"⟩, ⟨"a", some "2"⟩]] false
      = "[\n  \x7b\n    \"a\": \"2\",\n    \"b\": \"1\"\n  \x7d\n]"
    ∧ format_results [[⟨"b", some "1"⟩, ⟨"a", some "2"⟩]] "json" false
      ≠ .output (formatJsonPerSpec [[⟨"b", some "1"⟩, ⟨"a", some "2"⟩]] false) := by decide

/-- C7: after all patterns expand successfully to `v`, the cap applies: more
than 20 names are truncated to the first 20 (in processing order, exactly
20 long) with a non-fatal warning embedding the original count; 20 or fewer
pass through unchanged with no warning. -/
theorem c7_cap_truncates_to_first_twenty (catalog patterns : List String) (v : List String)
    (h : expandPatterns catalog [] patterns = .ok v) :
    (20 < v.length →
      validate_log_groups catalog patterns = .ok ⟨v.take 20, some (TRUNC_WARNING v.length)⟩
      ∧ (v.take 20).length = 20
      ∧ ∃ a b, TRUNC_WARNING v.length = a ++ natToString v.length ++ b)
    ∧ (v.length ≤ 20 → validate_log_groups catalog patterns = .ok ⟨v, none⟩) := by
  have hv : validate_log_groups catalog patterns
      = if 20 < v.length then .ok ⟨v.take 20, some (TRUNC_WARNING v.length)⟩
        else .ok ⟨v, none⟩ := by
    unfold validate_log_groups
    rw [h]
  constructor
  · intro hlen
    refine ⟨?_, ?_, ?_⟩
    · rw [hv, if_pos hlen]
    · rw [List.length_take]
      omega
    · exact ⟨"WARNING: CloudWatch limits queries to 20 log groups. " ++ "Using first 20 of ",
        " groups.", rfl⟩
  · intro hlen
    rw [hv, if_neg (by omega)]

/-- A 25-entry catalog whose names all match the wildcard `/aws/lambda/*`. -/
def catalog25 : List String :=
  (List.range 25).map (fun i => "/aws/lambda/f" ++ natToString i)

/-- Witness for C7: the single wildcard `/aws/lambda/*` expands to all 25
catalog entries, so `validate_log_groups` returns the first 20 of them with
the warning citing 25. -/
theorem c7_cap_truncates_to_first_twenty_witness :
    expandPatterns catalog25 [] ["/aws/lambda/*"] = .ok catalog25
    ∧ ((20 < catalog25.length →
        validate_log_groups catalog25 ["/aws/lambda/*"]
          = .ok ⟨catalog25.take 20, some (TRUNC_WARNING catalog25.length)⟩
        ∧ (catalog25.take 20).length = 20
        ∧ ∃ a b, TRUNC_WARNING catalog25.length = a ++ natToString catalog25.length ++ b)
      ∧ (catalog25.length ≤ 20 →
        validate_log_groups catalog25 ["/aws/lambda/*"] = .ok ⟨catalog25, none⟩))
    ∧ TRUNC_WARNING 25
      = "WARNING: CloudWatch limits queries to 20 log groups. Using first 20 of 25 groups." :=
  ⟨by decide,
   c7_cap_truncates_to_first_twenty catalog25 ["/aws/lambda/*"] catalog25 (by decide),
   by decide⟩

/-- C9: when both endpoints resolve and the end does not exceed the start,
`execute_query` fails with `QuerySyntaxError` whose message embeds both
resolved epoch values, and no `start_query` call record is ever produced. -/
theorem c9_inverted_range_rejected (nowMs off : Int) (catalog : List String)
    (query : String) (lgs : List String) (st en : String) (limit : Nat)
    (sMs eMs : Int)
    (hs : parse_time nowMs off st = .ok sMs)
    (he : parse_time nowMs off en = .ok eMs)
    (hle : eMs ≤ sMs) :
    execute_query nowMs off catalog query lgs st en limit
      = .error (.querySyntaxError (timeRangeErrorMsg st en sMs eMs))
    ∧ (∀ call, execute_query nowMs off catalog query lgs st en limit ≠ .ok call)
    ∧ ∃ a b c, timeRangeErrorMsg st en sMs eMs
        = a ++ intToString sMs ++ b ++ intToString eMs ++ c := by
  have hmain : execute_query nowMs off catalog query lgs st en limit
      = .error (.querySyntaxError (timeRangeErrorMsg st en sMs eMs)) := by
    unfold execute_query
    rw [hs, he]
    simp only [ge_iff_le, hle, if_true]
  refine ⟨hmain, ?_, ?_⟩
  · intro call
    rw [hmain]
    exact fun hcon => Except.noConfusion hcon
  · refine ⟨"Start time must be before end time\n" ++ "Start: " ++ st ++ " (",
      ")\n" ++ "End: " ++ en ++ " (", ")", ?_⟩
    unfold timeRangeErrorMsg
    simp only [String.append_assoc]

/-- Witness for C9: equal 13-digit endpoints are rejected. -/
theorem c9_inverted_range_rejected_witness :
    parse_time 0 0 "1733395200000" = .ok 1733395200000
    ∧ ((execute_query 0 0 [] "fields @message" ["/aws/x"] "1733395200000" "1733395200000" 10000
        = .error (.querySyntaxError
            (timeRangeErrorMsg "1733395200000" "1733395200000" 1733395200000 1733395200000)))
      ∧ (∀ call, execute_query 0 0 [] "fields @message" ["/aws/x"] "1733395200000"
          "1733395200000" 10000 ≠ .ok call)
      ∧ ∃ a b c, timeRangeErrorMsg "1733395200000" "1733395200000" 1733395200000 1733395200000
          = a ++ intToString 1733395200000 ++ b ++ intToString 1733395200000 ++ c) :=
  ⟨by decide,
   c9_inverted_range_rejected 0 0 [] "fields @message" ["/aws/x"] "1733395200000"
     "1733395200000" 10000 1733395200000 1733395200000 (by decide) (by decide) (by decide)⟩

lemma keys_dictInsert (d : List (String × String)) (k v : String) :
    (dictInsert d k v).map Prod.fst = appendNew (d.map Prod.fst) k := by
  by_cases hm : k ∈ d.map Prod.fst
  · have h1 : d.any (fun p => p.1 = k) = true := by
      obtain ⟨p, hp, hpk⟩ := List.mem_map.mp hm
      exact List.any_eq_true.mpr ⟨p, hp, by simp [hpk]⟩
    have h2 : (d.map Prod.fst).contains k = true := by
      simpa [List.contains, List.elem_iff] using hm
    unfold dictInsert appendNew
    rw [if_pos h1, if_pos h2, List.map_map]
    apply List.map_congr_left
    intro p hp
    by_cases hpk : p.1 = k
    · simp [hpk]
    · simp [hpk]
  · have h1 : ¬ d.any (fun p => p.1 = k) = true := by
      intro hcon
      obtain ⟨p, hp, hpk⟩ := List.any_eq_true.mp hcon
      exact hm (List.mem_map.mpr ⟨p, hp, by simpa using hpk⟩)
    have h2 : ¬ (d.map Prod.fst).contains k = true := by
      intro hcon
      exact hm (by simpa [List.contains, List.elem_iff] using hcon)
    unfold dictInsert appendNew
    rw [if_neg h1, if_neg h2]
    simp

lemma keys_foldl_dictInsert (r : List ResultField) :
    ∀ d : List (String × String),
      (r.foldl (fun d f => dictInsert d f.field (f.value.getD "")) d).map Prod.fst
        = (r.map (fun f => f.field)).foldl appendNew (d.map Prod.fst) := by
  induction r with
  | nil => intro d; rfl
  | cons f r ih =>
    intro d
    simp only [List.foldl_cons, List.map_cons]
    rw [ih, keys_dictInsert]

lemma keys_buildRow (r : List ResultField) :
    (buildRow r).map Prod.fst = distinctFields (r.map (fun f => f.field)) := by
  simpa [buildRow, distinctFields] using keys_foldl_dictInsert r []

/-- C5 amended: JSON output is the `json.dumps` of the row dicts exactly as
built — one object per row in original order, keys in each row's own
first-occurrence field order — and neither the computed schema nor the
exclude flag influences it. -/
theorem c5_json_row_order_amended (results : List (List ResultField)) (e1 e2 : Bool)
    (h1 : results ≠ []) (h2 : results.head? ≠ some []) :
    format_results results "json" e1 = .output (jsonDumpsRows (results.map buildRow))
    ∧ format_results results "json" e1 = format_results results "json" e2
    ∧ ∀ r ∈ results, (buildRow r).map Prod.fst = distinctFields (r.map (fun f => f.field)) := by
  have hfr : ∀ e : Bool, format_results results "json" e
      = .output (jsonDumpsRows (results.map buildRow)) := by
    intro e
    simp only [format_results]
    rw [if_neg (show ¬ results.isEmpty = true by simp [List.isEmpty_iff, h1]), if_neg h2]
    simp
  exact ⟨hfr e1, (hfr e1).trans (hfr e2).symm, fun r _ => keys_buildRow r⟩

/-- Witness for the amended C5 at the two-field row `b, a`. -/
theorem c5_json_row_order_amended_witness :
    (([[⟨"b", some "1"⟩, ⟨"a", some "2"⟩]] : List (List ResultField)) ≠ []
      ∧ ([[⟨"b", some "1"⟩, ⟨"a", some "2"⟩]] : List (List ResultField)).head? ≠ some [])
    ∧ (format_results [[⟨"b", some "1"⟩, ⟨"a", some "2"⟩]] "json" true
        = .output (jsonDumpsRows (([[⟨"b", some "1"⟩, ⟨"a", some "2"⟩]] :
            List (List ResultField)).map buildRow))
      ∧ format_results [[⟨"b", some "1"⟩, ⟨"a", some "2"⟩]] "json" true
        = format_results [[⟨"b", some "1"⟩, ⟨"a", some "2"⟩]] "json" false
      ∧ ∀ r ∈ ([[⟨"b", some "1"⟩, ⟨"a", some "2"⟩]] : List (List ResultField)),
          (buildRow r).map Prod.fst = distinctFields (r.map (fun f => f.field))) :=
  ⟨⟨by decide, by decide⟩,
   c5_json_row_order_amended [[⟨"b", some "1"⟩, ⟨"a", some "2"⟩]] true false
     (by decide) (by decide)⟩

lemma pollLoop_reaches_terminal (interval : Nat) (pre : List QueryResponse)
    (r : QueryResponse) (rest : List QueryResponse)
    (hpre : ∀ x ∈ pre, isTerminalStatus x.status = false)
    (hterm : isTerminalStatus r.status = true) :
    ∀ lastU curT : Nat,
      ∃ ups, pollLoop interval lastU curT (pre ++ r :: rest)
          = (ups ++ [⟨curT + 2 * pre.length, r.status, r.statistics⟩],
             some (if r.status = "Complete" then .complete r else .exitFailure))
        ∧ ∀ u ∈ ups, isTerminalStatus u.status = false := by
  induction pre with
  | nil =>
    intro lastU curT
    refine ⟨[], ?_, by simp⟩
    simp only [List.nil_append, pollLoop, hterm]
    simp
  | cons x pre ih =>
    intro lastU curT
    have hx : isTerminalStatus x.status = false := hpre x (List.mem_cons_self x pre)
    have hpre' : ∀ y ∈ pre, isTerminalStatus y.status = false :=
      fun y hy => hpre y (List.mem_cons_of_mem x hy)
    have harith : curT + 2 + 2 * pre.length = curT + 2 * (x :: pre).length := by
      simp [List.length_cons]
      ring
    by_cases hsu : interval ≤ curT - lastU
    · obtain ⟨ups, hups, hupsall⟩ := ih hpre' curT (curT + 2)
      have hstep : pollLoop interval lastU curT (x :: (pre ++ r :: rest))
          = (StatusUpdate.mk curT x.status x.statistics
                :: (pollLoop interval curT (curT + 2) (pre ++ r :: rest)).1,
             (pollLoop interval curT (curT + 2) (pre ++ r :: rest)).2) := by
        simp [pollLoop, hx, hsu]
      refine ⟨⟨curT, x.status, x.statistics⟩ :: ups, ?_, ?_⟩
      · rw [List.cons_append, hstep, hups, ← harith]
        simp
      · intro u hu
        rcases List.mem_cons.mp hu with huu | huu
        · rw [huu]; exact hx
        · exact hupsall u huu
    · obtain ⟨ups, hups, hupsall⟩ := ih hpre' lastU (curT + 2)
      have hstep : pollLoop interval lastU curT (x :: (pre ++ r :: rest))
          = ((pollLoop interval lastU (curT + 2) (pre ++ r :: rest)).1,
             (pollLoop interval lastU (curT + 2) (pre ++ r :: rest)).2) := by
        simp [pollLoop, hx, hsu]
      refine ⟨ups, ?_, hupsall⟩
      rw [List.cons_append, hstep, hups, ← harith]

/-- C6: whatever the interval, whenever the response stream consists of
non-terminal responses followed by a terminal one, the loop's emitted
update list ends with an update for the terminal response (so the terminal
transition always emits, elapsed gating notwithstanding), that is the only
terminal-status update emitted, and the loop's outcome is determined by the
terminal response — the `Complete` response itself on success. -/
theorem c6_terminal_update_always_emitted (interval : Nat)
    (pre : List QueryResponse) (r : QueryResponse) (rest : List QueryResponse)
    (hpre : ∀ x ∈ pre, isTerminalStatus x.status = false)
    (hterm : isTerminalStatus r.status = true) :
    (wait_for_results interval (pre ++ r :: rest)).1.getLast?
        = some ⟨2 * pre.length, r.status, r.statistics⟩
    ∧ ((wait_for_results interval (pre ++ r :: rest)).1.filter
        (fun u => isTerminalStatus u.status)).length = 1
    ∧ (wait_for_results interval (pre ++ r :: rest)).2
        = some (if r.status = "Complete" then .complete r else .exitFailure) := by
  obtain ⟨ups, heq, hupsall⟩ :=
    pollLoop_reaches_terminal interval pre r rest hpre hterm 0 0
  have heq' : wait_for_results interval (pre ++ r :: rest)
      = (ups ++ [⟨2 * pre.length, r.status, r.statistics⟩],
         some (if r.status = "Complete" then .complete r else .exitFailure)) := by
    unfold wait_for_results
    simpa using heq
  rw [heq']
  refine ⟨List.getLast?_concat ups, ?_, rfl⟩
  rw [List.filter_append]
  have hnil : ups.filter (fun u => isTerminalStatus u.status) = [] :=
    List.filter_eq_nil_iff.mpr (fun u hu => by simp [hupsall u hu])
  simp [hnil, hterm]

/-- Witness for C6 at the sequence `[Running, Running, Complete]` with the
default 30-second interval: the loop returns the complete response and
emits exactly the one terminal line. -/
theorem c6_terminal_update_always_emitted_witness :
    (∀ x ∈ [runningResp, runningResp], isTerminalStatus x.status = false)
    ∧ isTerminalStatus completeResp.status = true
    ∧ ((wait_for_results 30 ([runningResp, runningResp] ++ completeResp :: [])).1.getLast?
        = some ⟨2 * [runningResp, runningResp].length, completeResp.status,
            completeResp.statistics⟩
      ∧ ((wait_for_results 30 ([runningResp, runningResp] ++ completeResp :: [])).1.filter
          (fun u => isTerminalStatus u.status)).length = 1
      ∧ (wait_for_results 30 ([runningResp, runningResp] ++ completeResp :: [])).2
          = some (if completeResp.status = "Complete" then .complete completeResp
              else .exitFailure))
    ∧ wait_for_results 30 [runningResp, runningResp, completeResp]
        = ([⟨4, "Complete", some ⟨100, 10, 2048⟩⟩], some (.complete completeResp)) :=
  ⟨by decide, by decide,
   c6_terminal_update_always_emitted 30 [runningResp, runningResp] completeResp []
     (by decide) (by decide),
   by decide⟩

lemma contains_eq_true_iff {a : String} {l : List String} : l.contains a = true ↔ a ∈ l := by
  simp [List.contains, List.elem_iff]

lemma mem_insertSorted {a x : String} {l : List String} :
    a ∈ insertSorted x l ↔ a = x ∨ a ∈ l := by
  induction l with
  | nil => simp [insertSorted]
  | cons y ys ih =>
    simp only [insertSorted]
    by_cases h : lexLe x.data y.data = true
    · rw [if_pos h]
      simp [List.mem_cons]
    · rw [if_neg h, List.mem_cons, ih, List.mem_cons]
      tauto

lemma mem_sortStrings {a : String} {l : List String} : a ∈ sortStrings l ↔ a ∈ l := by
  induction l with
  | nil => simp [sortStrings]
  | cons x xs ih =>
    simp only [sortStrings, List.foldr_cons] at *
    rw [mem_insertSorted, ih, List.mem_cons]

lemma mem_appendNew {a k : String} {acc : List String} :
    a ∈ appendNew acc k ↔ a ∈ acc ∨ a = k := by
  unfold appendNew
  by_cases h : acc.contains k = true
  · rw [if_pos h]
    constructor
    · exact Or.inl
    · rintro (h1 | rfl)
      · exact h1
      · exact contains_eq_true_iff.mp h
  · rw [if_neg h]
    simp

lemma mem_foldl_appendNew {a : String} (l : List String) :
    ∀ acc, a ∈ l.foldl appendNew acc ↔ a ∈ acc ∨ a ∈ l := by
  induction l with
  | nil => simp
  | cons k l ih =>
    intro acc
    rw [List.foldl_cons, ih, mem_appendNew, List.mem_cons]
    tauto

lemma mem_distinctFields {a : String} {l : List String} :
    a ∈ distinctFields l ↔ a ∈ l := by
  unfold distinctFields
  rw [mem_foldl_appendNew]
  simp

lemma schema_no_privileged (results : List (List ResultField)) (excl : Bool)
    (hall : ∀ g ∈ allFieldNames results, "@".data.isPrefixOf g.data = false) :
    computeSortedFields results excl = sortStrings (distinctFields (allFieldNames results)) := by
  simp only [computeSortedFields]
  have hmeta : metadata_fields.filter (fun f => (allFieldNames results).contains f) = [] := by
    rw [List.filter_eq_nil_iff]
    intro f hf
    have hat : "@".data.isPrefixOf f.data = true := by
      simp only [metadata_fields, List.mem_cons, List.not_mem_nil, or_false] at hf
      rcases hf with rfl | rfl | rfl | rfl <;> decide
    intro hcon
    have hmem : f ∈ allFieldNames results := contains_eq_true_iff.mp hcon
    rw [hall f hmem] at hat
    exact Bool.noConfusion hat
  have hfilter2 : (distinctFields (allFieldNames results)).filter
      (fun f => !(metadata_fields.contains f)) = distinctFields (allFieldNames results) := by
    rw [List.filter_eq_self]
    intro f hf
    have hmem : f ∈ allFieldNames results := mem_distinctFields.mp hf
    have hnm : f ∉ metadata_fields := by
      intro hfm
      have hat : "@".data.isPrefixOf f.data = true := by
        simp only [metadata_fields, List.mem_cons, List.not_mem_nil, or_false] at hfm
        rcases hfm with rfl | rfl | rfl | rfl <;> decide
      rw [hall f hmem] at hat
      exact Bool.noConfusion hat
    have hcf : metadata_fields.contains f = false := by
      cases hcase : metadata_fields.contains f
      · rfl
      · exact absurd (contains_eq_true_iff.mp hcase) hnm
    simp only [hcf, Bool.not_false]
  rw [hmeta, hfilter2, List.nil_append]
  cases excl with
  | false => simp
  | true =>
    rw [if_pos rfl, List.filter_eq_self]
    intro f hf
    have hmem : f ∈ allFieldNames results := mem_distinctFields.mp (mem_sortStrings.mp hf)
    simp [hall f hmem]

lemma dictWriterRow_ok (fields : List String) (row : List (String × String))
    (hsub : ∀ k ∈ row.map Prod.fst, fields.contains k = true) :
    dictWriterRow fields row = .ok (fields.map (fun f => pyGetD row f)) := by
  unfold dictWriterRow
  have hnil : (row.map Prod.fst).filter (fun k => !(fields.contains k)) = [] := by
    rw [List.filter_eq_nil_iff]
    intro k hk
    rw [hsub k hk]
    decide
  rw [hnil]
  simp [distinctFields]

lemma mapM_dictWriterRow_ok (fields : List String) (rows : List (List (String × String)))
    (h : ∀ row ∈ rows, dictWriterRow fields row = .ok (fields.map (fun f => pyGetD row f))) :
    rows.mapM (dictWriterRow fields)
      = .ok (rows.map (fun row => fields.map (fun f => pyGetD row f))) := by
  induction rows with
  | nil => rfl
  | cons row rows ih =>
    rw [List.mapM_cons, h row (List.mem_cons_self row rows),
      ih (fun r hr => h r (List.mem_cons_of_mem _ hr))]
    rfl

/-- C8: on a result set with no `@`-prefixed field (hence no privileged
field), the CSV output is exactly: a header holding the distinct field-name
union in lexicographically sorted order, then one record per row in the
original row order, each cell looked up in the row's dict with the empty
string substituted for an absent field — the schema equals the sorted union
for either value of the exclude flag, and no row is ever rejected. -/
theorem c8_csv_sorted_union_and_empty_defaults (results : List (List ResultField)) (excl : Bool)
    (h1 : results ≠ []) (h2 : results.head? ≠ some [])
    (h3 : ∀ row ∈ results, ∀ f ∈ row, "@".data.isPrefixOf f.field.data = false) :
    computeSortedFields results excl = sortStrings (distinctFields (allFieldNames results))
    ∧ format_results results "csv" excl
      = .output (String.join
          (csvLine (sortStrings (distinctFields (allFieldNames results)))
            :: results.map (fun r =>
                csvLine ((sortStrings (distinctFields (allFieldNames results))).map
                  (fun fd => pyGetD (buildRow r) fd))))) := by
  have hall : ∀ g ∈ allFieldNames results, "@".data.isPrefixOf g.data = false := by
    intro g hg
    obtain ⟨row, hrow, hg2⟩ := List.mem_flatMap.mp hg
    obtain ⟨f, hf, rfl⟩ := List.mem_map.mp hg2
    exact h3 row hrow f hf
  have hschema := schema_no_privileged results excl hall
  have hcontains : ∀ r ∈ results, ∀ k ∈ (buildRow r).map Prod.fst,
      (sortStrings (distinctFields (allFieldNames results))).contains k = true := by
    intro r hr k hk
    rw [keys_buildRow] at hk
    have hk1 : k ∈ r.map (fun f => f.field) := mem_distinctFields.mp hk
    have hk2 : k ∈ allFieldNames results := List.mem_flatMap.mpr ⟨r, hr, hk1⟩
    exact contains_eq_true_iff.mpr (mem_sortStrings.mpr (mem_distinctFields.mpr hk2))
  have hrows : (results.map buildRow).mapM
        (dictWriterRow (sortStrings (distinctFields (allFieldNames results))))
      = .ok ((results.map buildRow).map (fun row =>
          (sortStrings (distinctFields (allFieldNames results))).map
            (fun f => pyGetD row f))) := by
    apply mapM_dictWriterRow_ok
    intro row hrow
    obtain ⟨r, hr, rfl⟩ := List.mem_map.mp hrow
    exact dictWriterRow_ok _ _ (hcontains r hr)
  have hcsv : format_csv (results.map buildRow)
        (sortStrings (distinctFields (allFieldNames results)))
      = .ok (String.join
          (csvLine (sortStrings (distinctFields (allFieldNames results)))
            :: ((results.map buildRow).map (fun row =>
                (sortStrings (distinctFields (allFieldNames results))).map
                  (fun f => pyGetD row f))).map csvLine)) := by
    unfold format_csv
    rw [hrows]
  refine ⟨hschema, ?_⟩
  simp only [format_results]
  rw [if_neg (show ¬ results.isEmpty = true by simp [List.isEmpty_iff, h1]), if_neg h2]
  rw [hschema]
  simp only [if_neg (show ¬ ("csv" : String) = "json" by decide), if_pos rfl]
  rw [hcsv]
  simp only [List.map_map]
  rfl

/-- Witness for C8 at rows with field sets `A,B` / `B,C` / `A`: the header
is `A,B,C` and the absent cells render empty. -/
theorem c8_csv_sorted_union_and_empty_defaults_witness :
    (([[⟨"A", some "1"⟩, ⟨"B", some "2"⟩], [⟨"B", some "3"⟩, ⟨"C", some "4"⟩],
        [⟨"A", some "5"⟩]] : List (List ResultField)) ≠ []
      ∧ ([[⟨"A", some "1"⟩, ⟨"B", some "2"⟩], [⟨"B", some "3"⟩, ⟨"C", some "4"⟩],
          [⟨"A", some "5"⟩]] : List (List ResultField)).head? ≠ some []
      ∧ ∀ row ∈ ([[⟨"A", some "1"⟩, ⟨"B", some "2"⟩], [⟨"B", some "3"⟩, ⟨"C", some "4"⟩],
          [⟨"A", some "5"⟩]] : List (List ResultField)), ∀ f ∈ row,
            "@".data.isPrefixOf f.field.data = false)
    ∧ (computeSortedFields [[⟨"A", some "1"⟩, ⟨"B", some "2"⟩], [⟨"B", some "3"⟩,
          ⟨"C", some "4"⟩], [⟨"A", some "5"⟩]] false
        = sortStrings (distinctFields (allFieldNames [[⟨"A", some "1"⟩, ⟨"B", some "2"⟩],
            [⟨"B", some "3"⟩, ⟨"C", some "4"⟩], [⟨"A", some "5"⟩]]))
      ∧ format_results [[⟨"A", some "1"⟩, ⟨"B", some "2"⟩], [⟨"B", some "3"⟩, ⟨"C", some "4"⟩],
          [⟨"A", some "5"⟩]] "csv" false
        = .output (String.join
            (csvLine (sortStrings (distinctFields (allFieldNames [[⟨"A", some "1"⟩,
                ⟨"B", some "2"⟩], [⟨"B", some "3"⟩, ⟨"C", some "4"⟩], [⟨"A", some "5"⟩]])))
              :: ([[⟨"A", some "1"⟩, ⟨"B", some "2"⟩], [⟨"B", some "3"⟩, ⟨"C", some "4"⟩],
                  [⟨"A", some "5"⟩]] : List (List ResultField)).map (fun r =>
                  csvLine ((sortStrings (distinctFields (allFieldNames [[⟨"A", some "1"⟩,
                      ⟨"B", some "2"⟩], [⟨"B", some "3"⟩, ⟨"C", some "4"⟩],
                      [⟨"A", some "5"⟩]]))).map (fun fd => pyGetD (buildRow r) fd))))))
    ∧ format_results [[⟨"A", some "1"⟩, ⟨"B", some "2"⟩], [⟨"B", some "3"⟩, ⟨"C", some "4"⟩],
        [⟨"A", some "5"⟩]] "csv" false
      = .output "A,B,C\r\n1,2,\r\n,3,4\r\n5,,\r\n" :=
  ⟨⟨by decide, by decide, by decide⟩,
   c8_csv_sorted_union_and_empty_defaults
     [[⟨"A", some "1"⟩, ⟨"B", some "2"⟩], [⟨"B", some "3"⟩, ⟨"C", some "4"⟩],
       [⟨"A", some "5"⟩]] false (by decide) (by decide) (by decide),
   by decide⟩

